import Mathlib

/-!
Verification of the `enharmonic-note-selector` web component (`src/mod.ts`,
class `EnharmonicNoteSelector`).  The repository contains several
near-duplicate variants of the component; the embedding below follows the
variant whose selection setter lives at the lines cited by the claims
(the one with the `rootNotesOnly` mode, the early-return de-duplication
guard in `set selectedNoteName`, and the clear-selection button).

The component's observable state is modelled as a record: the selected
note name and integer, the reflected `selected-note-name` host attribute,
the presence of the `root-notes-only` attribute, the rendered note-button
groups, and the `isConnected` flag.  DOM-only updates (button labels,
aria labels, highlight state) have no further observable effect and are
not part of the state.

`setAttribute`/`removeAttribute` on the host synchronously invoke
`attributeChangedCallback`, which for `selected-note-name` re-enters the
property setter.  This re-entrancy is modelled with one explicit level of
unfolding (`setSelectedNoteNameNoReent` plays the re-entrant call): the
inner call's own attribute sync provably cannot fire the callback again
(either its early-return guard hits, or it removes an attribute that the
outer call has already removed), so one level is exact.

The enharmonic note tables come from the external package
`@musodojo/music-theory-data` and are opaque data to the component, so
every theorem is parameterised over an arbitrary `Catalog`; the concrete
`specCatalog` used by witnesses and counterexamples is modelled from the
spec and from the pitch-class tables in the component's doc comments.
-/

namespace EnharmonicNoteSelectorSpec

/-- The two note tables imported from `@musodojo/music-theory-data`:
`enharmonicNoteNameGroups` (full spellings) and `enharmonicRootNoteGroups`
(root-only spellings), each an ordered sequence of groups of spellings. -/
structure Catalog where
  noteNameGroups : List (List String)
  rootNoteGroups : List (List String)
deriving DecidableEq

/-- The `detail` payload of the `enharmonic-note-selected` custom event. -/
structure EventPayload where
  noteName : Option String
  noteInteger : Option Nat
deriving DecidableEq

/-- Observable state of an `EnharmonicNoteSelector` instance:
the two private selection fields, the reflected `selected-note-name`
attribute, the `root-notes-only` attribute (read by the `rootNotesOnly`
getter), the note groups currently rendered into the buttons div, and
the DOM-connection flag. -/
structure SelectorState where
  selectedNoteName : Option String
  selectedNoteInteger : Option Nat
  attrSelectedNoteName : Option String
  rootNotesOnly : Bool
  renderedGroups : List (List String)
  isConnected : Bool
deriving DecidableEq

/-- JavaScript truthiness of a `string | null` value: `null` and the
empty string are falsy (`if (this.#selectedNoteName)`). -/
def truthy : Option String → Bool
  | some s => s ≠ ""
  | none => false

/-- The private `#noteGroups` getter: the active table, selected by the
`rootNotesOnly` flag. -/
def activeGroups (cat : Catalog) (st : SelectorState) : List (List String) :=
  if st.rootNotesOnly then cat.rootNoteGroups else cat.noteNameGroups

/-- `noteGroups.findIndex((group) => group.includes(newNote))`: index of
the first group containing the note under exact string equality, `none`
playing the role of `-1`. -/
def findNoteIndex : List (List String) → String → Option Nat
  | [], _ => none
  | g :: gs, note =>
    if note ∈ g then some 0 else (findNoteIndex gs note).map (· + 1)

/-- The resolution core of `set selectedNoteName`: reset both fields to
`null`, then, when the candidate is non-null and some group contains it,
store the candidate and the first matching group index. -/
def resolveReset (groups : List (List String)) (st : SelectorState)
    (newNote : Option String) : SelectorState :=
  match newNote with
  | none =>
    { st with selectedNoteName := none, selectedNoteInteger := none }
  | some s =>
    match findNoteIndex groups s with
    | some i =>
      { st with selectedNoteName := some s, selectedNoteInteger := some i }
    | none =>
      { st with selectedNoteName := none, selectedNoteInteger := none }

/-- The payload `#dispatchNoteSelectedEvent` reads from the current
private fields. -/
def payloadOf (st : SelectorState) : EventPayload :=
  ⟨st.selectedNoteName, st.selectedNoteInteger⟩

/-- `#syncSelectedNoteNameAttribute` with the `attributeChangedCallback`
re-entrancy elided: set the attribute when the name is truthy, remove it
otherwise.  Used only to play the single re-entrant setter call, whose
own sync provably cannot fire the callback (see `setSelectedNoteName`). -/
def syncAttrNoCallback (st : SelectorState) : SelectorState :=
  if truthy st.selectedNoteName then
    { st with attrSelectedNoteName := st.selectedNoteName }
  else
    { st with attrSelectedNoteName := none }

/-- The body of `set selectedNoteName` with the attribute-sync
re-entrancy elided: de-duplication guard, reset-and-resolve, attribute
sync, and — only while connected — the event dispatch carrying the new
`(noteName, noteInteger)` pair. -/
def setSelectedNoteNameNoReent (cat : Catalog) (st : SelectorState)
    (newNote : Option String) : SelectorState × List EventPayload :=
  if st.selectedNoteName = newNote then (st, [])
  else
    let st1 := resolveReset (activeGroups cat st) st newNote
    let st2 := syncAttrNoCallback st1
    (st2, if st2.isConnected then [payloadOf st2] else [])

/-- `#syncSelectedNoteNameAttribute` on the host element, including the
synchronous `attributeChangedCallback` that `setAttribute` /
`removeAttribute` trigger when the attribute value actually changes
(`if (oldValue === newValue) return;`); for `selected-note-name` the
callback assigns the new attribute value back to the property setter. -/
def syncSelectedNoteNameAttribute (cat : Catalog) (st : SelectorState) :
    SelectorState × List EventPayload :=
  if truthy st.selectedNoteName then
    let st1 := { st with attrSelectedNoteName := st.selectedNoteName }
    if st.attrSelectedNoteName = st.selectedNoteName then (st1, [])
    else setSelectedNoteNameNoReent cat st1 st.selectedNoteName
  else
    match st.attrSelectedNoteName with
    | none => (st, [])
    | some _ =>
      let st1 := { st with attrSelectedNoteName := none }
      setSelectedNoteNameNoReent cat st1 none

/-- `set selectedNoteName(newNote)`: early return when the candidate
equals the current name; otherwise reset both fields, resolve the
candidate against the active groups, reflect the result into the
`selected-note-name` attribute (whose change callback re-enters the
setter once), and, while connected, update the DOM and dispatch
`enharmonic-note-selected` with the current `(name, integer)` pair.
Returns the new state and the dispatched payloads in order. -/
def setSelectedNoteName (cat : Catalog) (st : SelectorState)
    (newNote : Option String) : SelectorState × List EventPayload :=
  if st.selectedNoteName = newNote then (st, [])
  else
    let st1 := resolveReset (activeGroups cat st) st newNote
    let res := syncSelectedNoteNameAttribute cat st1
    (res.1, res.2 ++ (if res.1.isConnected then [payloadOf res.1] else []))

/-- `#populateEnharmonicNoteButtonsDiv`: re-render the note buttons from
the active groups. -/
def populateEnharmonicNoteButtonsDiv (cat : Catalog) (st : SelectorState) :
    SelectorState :=
  { st with renderedGroups := activeGroups cat st }

/-- `set rootNotesOnly(value)`: `toggleAttribute("root-notes-only", value)`;
when the attribute presence actually changes, `attributeChangedCallback`
re-renders the note buttons and does nothing else. -/
def setRootNotesOnly (cat : Catalog) (st : SelectorState) (value : Bool) :
    SelectorState × List EventPayload :=
  if st.rootNotesOnly = value then (st, [])
  else
    let st1 := { st with rootNotesOnly := value }
    (populateEnharmonicNoteButtonsDiv cat st1, [])

/-- Click handler of a rendered note button: assign
`button.dataset.noteName ?? null` to the property setter (the dialog
close has no state effect). -/
def noteButtonClick (cat : Catalog) (st : SelectorState)
    (btnNoteName : Option String) : SelectorState × List EventPayload :=
  setSelectedNoteName cat st btnNoteName

/-- Click handler of the clear-selection button:
`this.selectedNoteName = null`. -/
def clearSelectionClick (cat : Catalog) (st : SelectorState) :
    SelectorState × List EventPayload :=
  setSelectedNoteName cat st none

/-- One iteration body of `setRandomNote`'s sampling: pick a group index
uniformly, then a note index within the group.  A draw from the random
stream is a pair of naturals, reduced modulo the respective lengths to
model `Math.floor(Math.random() * length)`. -/
def randomDraw (groups : List (List String)) (r : Nat × Nat) : String :=
  let randomNoteGroup := groups.getD (r.1 % groups.length) []
  randomNoteGroup.getD (r.2 % randomNoteGroup.length) ""

/-- The `do … while (randomNote === this.selectedNoteName)` loop of
`setRandomNote`, made total with an explicit fuel bound: draw the `k`-th
sample, return it when it differs from the current name, otherwise keep
sampling.  `none` means the fuel ran out with every sample equal to the
current selection — the source loop would still be running. -/
def randomLoopAux (groups : List (List String)) (current : Option String)
    (stream : Nat → Nat × Nat) : Nat → Nat → Option String
  | _, 0 => none
  | k, fuel + 1 =>
    let randomNote := randomDraw groups (stream k)
    if some randomNote = current then
      randomLoopAux groups current stream (k + 1) fuel
    else some randomNote

/-- `setRandomNote()`: resample until the drawn note differs from the
current selection, then assign it through the property setter.  `none`
when the loop does not finish within `fuel` samples. -/
def setRandomNote (cat : Catalog) (st : SelectorState)
    (stream : Nat → Nat × Nat) (fuel : Nat) :
    Option (SelectorState × List EventPayload) :=
  match randomLoopAux (activeGroups cat st) st.selectedNoteName stream 0 fuel with
  | none => none
  | some randomNote => some (setSelectedNoteName cat st (some randomNote))

/-- Component state right after a successful constructor run: no
selection, no reflected attribute, nothing rendered, not yet connected. -/
def initialState (rootOnly : Bool) : SelectorState :=
  { selectedNoteName := none
    selectedNoteInteger := none
    attrSelectedNoteName := none
    rootNotesOnly := rootOnly
    renderedGroups := []
    isConnected := false }

/-- Results of the constructor's shadow-DOM queries for the critical
elements, each `Element | null` modelled as `Option Unit`. -/
structure DomQueryResult where
  mainButton : Option Unit
  mainButtonTextSpan : Option Unit
  mainButtonSlot : Option Unit
  dialog : Option Unit
  closeDialogButton : Option Unit
  enharmonicNoteButtonsDiv : Option Unit
  clearSelectionButton : Option Unit
deriving DecidableEq

/-- `#cacheDomElements`: throw when any critical element is missing,
otherwise cache them all. -/
def cacheDomElements (q : DomQueryResult) : Except String DomQueryResult :=
  if q.mainButton.isNone || q.mainButtonTextSpan.isNone
      || q.mainButtonSlot.isNone || q.dialog.isNone
      || q.closeDialogButton.isNone || q.enharmonicNoteButtonsDiv.isNone
      || q.clearSelectionButton.isNone then
    Except.error "EnharmonicNoteSelector: Critical elements not found in shadow DOM."
  else
    Except.ok q

/-- The constructor: attach the shadow root, stamp the template, and run
`#cacheDomElements`; a thrown error aborts construction, otherwise the
component starts in the cleared initial state. -/
def constructComponent (q : DomQueryResult) (rootOnly : Bool) :
    Except String SelectorState :=
  match cacheDomElements q with
  | Except.error e => Except.error e
  | Except.ok _ => Except.ok (initialState rootOnly)

/-- The selection-consistency invariant: the name and the integer are
null together or non-null together, and a non-null integer is an index
below 12 of a catalog group (full or root table) containing the name. -/
def SelectionInv (cat : Catalog) (st : SelectorState) : Prop :=
  match st.selectedNoteName, st.selectedNoteInteger with
  | none, none => True
  | some s, some i =>
    i < 12 ∧ (s ∈ cat.noteNameGroups.getD i [] ∨ s ∈ cat.rootNoteGroups.getD i [])
  | _, _ => False

/-- Modelled from the spec: the note tables of the external package
`@musodojo/music-theory-data` are not part of this repository; the full
groups follow the pitch-class tables in the component's doc comments
(group 0 = C, B♯, D𝄫 and so on) and the root groups keep the common
root spellings of each pitch class. -/
def enharmonicNoteNameGroups : List (List String) :=
  [["C", "B♯", "D𝄫"], ["C♯", "D♭"], ["D", "C𝄪", "E𝄫"], ["D♯", "E♭"],
   ["E", "F♭", "D𝄪"], ["F", "E♯"], ["F♯", "G♭"], ["G", "F𝄪", "A𝄫"],
   ["G♯", "A♭"], ["A", "G𝄪", "B𝄫"], ["A♯", "B♭"], ["B", "C♭", "A𝄪"]]

/-- Modelled from the spec: the reduced root-only table restricts each
pitch class to its common root spellings. -/
def enharmonicRootNoteGroups : List (List String) :=
  [["C"], ["C♯", "D♭"], ["D"], ["D♯", "E♭"], ["E"], ["F"],
   ["F♯", "G♭"], ["G"], ["G♯", "A♭"], ["A"], ["A♯", "B♭"], ["B"]]

/-- The concrete catalog used by witnesses and counterexamples. -/
def specCatalog : Catalog :=
  ⟨enharmonicNoteNameGroups, enharmonicRootNoteGroups⟩

/-- A connected component with no selection, full catalog active. -/
def stConn : SelectorState :=
  { selectedNoteName := none
    selectedNoteInteger := none
    attrSelectedNoteName := none
    rootNotesOnly := false
    renderedGroups := []
    isConnected := true }

/-! ### Basic lemmas about note resolution -/

/-- A found index points below the length of the table and at a group
containing the note. -/
theorem findNoteIndex_some {gs : List (List String)} {s : String} {i : Nat}
    (h : findNoteIndex gs s = some i) :
    i < gs.length ∧ s ∈ gs.getD i [] := by
  induction gs generalizing i with
  | nil => simp [findNoteIndex] at h
  | cons g gs ih =>
    by_cases hg : s ∈ g
    · simp [findNoteIndex, hg] at h
      subst h
      simpa [List.getD] using hg
    · simp [findNoteIndex, hg, Option.map_eq_some'] at h
      obtain ⟨j, hj, rfl⟩ := h
      obtain ⟨hlt, hmem⟩ := ih hj
      refine ⟨by simpa [List.length_cons] using Nat.succ_lt_succ hlt, ?_⟩
      simpa [List.getD] using hmem

/-- A note present in some group of the table is found. -/
theorem findNoteIndex_of_mem {gs : List (List String)} {g : List String}
    {s : String} (hg : g ∈ gs) (hs : s ∈ g) :
    ∃ i, findNoteIndex gs s = some i := by
  induction gs with
  | nil => cases hg
  | cons g0 gs ih =>
    by_cases h0 : s ∈ g0
    · exact ⟨0, by simp [findNoteIndex, h0]⟩
    · rcases List.mem_cons.mp hg with rfl | hg'
      · exact absurd hs h0
      · obtain ⟨i, hi⟩ := ih hg'
        exact ⟨i + 1, by simp [findNoteIndex, h0, hi]⟩

/-! ### Characterization of the selection setter -/

/-- De-duplication guard: assigning the currently selected name is a
complete no-op — the state is unchanged and nothing is dispatched. -/
theorem setSelectedNoteName_self (cat : Catalog) (st : SelectorState)
    (newNote : Option String) (h : st.selectedNoteName = newNote) :
    setSelectedNoteName cat st newNote = (st, []) := by
  simp [setSelectedNoteName, h]

/-- Assigning a resolvable non-empty name different from the current one
selects it: both fields are set, the attribute follows, and exactly one
event with the new pair is dispatched when connected. -/
theorem setSelectedNoteName_valid (cat : Catalog) (st : SelectorState)
    (s : String) (i : Nat)
    (hne : st.selectedNoteName ≠ some s) (hs : s ≠ "")
    (hi : findNoteIndex (activeGroups cat st) s = some i) :
    setSelectedNoteName cat st (some s) =
      ({ st with selectedNoteName := some s, selectedNoteInteger := some i,
                 attrSelectedNoteName := some s },
       if st.isConnected then [⟨some s, some i⟩] else []) := by
  have hres : resolveReset (activeGroups cat st) st (some s) =
      { st with selectedNoteName := some s, selectedNoteInteger := some i } := by
    simp [resolveReset, hi]
  by_cases hattr : st.attrSelectedNoteName = some s
  · simp [setSelectedNoteName, hne, hres, syncSelectedNoteNameAttribute,
      truthy, hs, hattr, payloadOf]
  · simp [setSelectedNoteName, hne, hres, syncSelectedNoteNameAttribute,
      truthy, hs, hattr, setSelectedNoteNameNoReent, payloadOf]

/-- Assigning `null` or a name absent from every active group, different
from the current name, clears the selection: both fields and the
attribute become `null`, and exactly one `(null, null)` event is
dispatched when connected. -/
theorem setSelectedNoteName_invalid (cat : Catalog) (st : SelectorState)
    (newNote : Option String)
    (hne : st.selectedNoteName ≠ newNote)
    (hinv : ∀ s, newNote = some s → findNoteIndex (activeGroups cat st) s = none) :
    setSelectedNoteName cat st newNote =
      ({ st with selectedNoteName := none, selectedNoteInteger := none,
                 attrSelectedNoteName := none },
       if st.isConnected then [⟨none, none⟩] else []) := by
  unfold setSelectedNoteName
  rw [if_neg hne]
  have hres : resolveReset (activeGroups cat st) st newNote =
      { st with selectedNoteName := none, selectedNoteInteger := none } := by
    cases newNote with
    | none => rfl
    | some s => simp [resolveReset, hinv s rfl]
  rw [hres]
  unfold syncSelectedNoteNameAttribute
  simp only [truthy]
  cases hattr : st.attrSelectedNoteName with
  | none =>
    simp [payloadOf, hattr]
  | some a =>
    simp [setSelectedNoteNameNoReent, payloadOf, syncAttrNoCallback, truthy]

/-- `List.getD` at an index below the length is a member. -/
theorem getD_mem_of_lt {α : Type} {l : List α} {i : Nat} (d : α)
    (h : i < l.length) : l.getD i d ∈ l := by
  induction l generalizing i with
  | nil => simp at h
  | cons a l ih =>
    cases i with
    | zero => simp [List.getD]
    | succ j =>
      have := ih (i := j) (by simpa [List.length_cons] using Nat.lt_of_succ_lt_succ h)
      simpa [List.getD] using Or.inr this

/-- Every run of the setter leaves the selection pair unchanged (guard),
cleared, or set to a name resolved in the active groups at its first
matching index. -/
theorem setSelectedNoteName_shape (cat : Catalog) (st : SelectorState)
    (x : Option String) :
    ((setSelectedNoteName cat st x).1.selectedNoteName = st.selectedNoteName
      ∧ (setSelectedNoteName cat st x).1.selectedNoteInteger = st.selectedNoteInteger)
    ∨ ((setSelectedNoteName cat st x).1.selectedNoteName = none
      ∧ (setSelectedNoteName cat st x).1.selectedNoteInteger = none)
    ∨ (∃ s i, (setSelectedNoteName cat st x).1.selectedNoteName = some s
      ∧ (setSelectedNoteName cat st x).1.selectedNoteInteger = some i
      ∧ findNoteIndex (activeGroups cat st) s = some i) := by
  by_cases hguard : st.selectedNoteName = x
  · rw [setSelectedNoteName_self cat st x hguard]
    exact Or.inl ⟨rfl, rfl⟩
  · cases x with
    | none =>
      rw [setSelectedNoteName_invalid cat st none hguard (by intro s h; cases h)]
      exact Or.inr (Or.inl ⟨rfl, rfl⟩)
    | some s =>
      cases hi : findNoteIndex (activeGroups cat st) s with
      | none =>
        rw [setSelectedNoteName_invalid cat st (some s) hguard
          (by intro t h; cases h; exact hi)]
        exact Or.inr (Or.inl ⟨rfl, rfl⟩)
      | some i =>
        by_cases hs : s = ""
        · subst hs
          cases hattr : st.attrSelectedNoteName with
          | none =>
            refine Or.inr (Or.inr ⟨"", i, ?_, ?_, hi⟩) <;>
              simp [setSelectedNoteName, hguard, resolveReset, hi,
                syncSelectedNoteNameAttribute, truthy, hattr]
          | some a =>
            refine Or.inr (Or.inl ⟨?_, ?_⟩) <;>
              simp [setSelectedNoteName, hguard, resolveReset, hi,
                syncSelectedNoteNameAttribute, truthy, hattr,
                setSelectedNoteNameNoReent, syncAttrNoCallback]
        · rw [setSelectedNoteName_valid cat st s i hguard hs hi]
          exact Or.inr (Or.inr ⟨s, i, rfl, rfl, hi⟩)

/-- Setter outputs keep the name-and-integer fields consistent: a null
name comes with a null integer. -/
theorem setSelectedNoteName_consistent (cat : Catalog) (st : SelectorState)
    (x : Option String)
    (hc : st.selectedNoteName = none → st.selectedNoteInteger = none)
    (h : (setSelectedNoteName cat st x).1.selectedNoteName = none) :
    (setSelectedNoteName cat st x).1.selectedNoteInteger = none := by
  rcases setSelectedNoteName_shape cat st x with ⟨h1, h2⟩ | ⟨_, h2⟩ | ⟨s, i, h1, _, _⟩
  · rw [h2]; exact hc (h1 ▸ h)
  · exact h2
  · rw [h1] at h; cases h

/-- The setter never touches the mode flag, the rendered groups, or the
connection flag. -/
theorem setSelectedNoteName_frame (cat : Catalog) (st : SelectorState)
    (x : Option String) :
    (setSelectedNoteName cat st x).1.rootNotesOnly = st.rootNotesOnly
    ∧ (setSelectedNoteName cat st x).1.isConnected = st.isConnected
    ∧ (setSelectedNoteName cat st x).1.renderedGroups = st.renderedGroups := by
  by_cases hguard : st.selectedNoteName = x
  · rw [setSelectedNoteName_self cat st x hguard]
    exact ⟨rfl, rfl, rfl⟩
  · cases x with
    | none =>
      rw [setSelectedNoteName_invalid cat st none hguard (by intro s h; cases h)]
      exact ⟨rfl, rfl, rfl⟩
    | some s =>
      cases hi : findNoteIndex (activeGroups cat st) s with
      | none =>
        rw [setSelectedNoteName_invalid cat st (some s) hguard
          (by intro t h; cases h; exact hi)]
        exact ⟨rfl, rfl, rfl⟩
      | some i =>
        by_cases hs : s = ""
        · subst hs
          cases hattr : st.attrSelectedNoteName with
          | none =>
            refine ⟨?_, ?_, ?_⟩ <;>
              simp [setSelectedNoteName, hguard, resolveReset, hi,
                syncSelectedNoteNameAttribute, truthy, hattr]
          | some a =>
            refine ⟨?_, ?_, ?_⟩ <;>
              simp [setSelectedNoteName, hguard, resolveReset, hi,
                syncSelectedNoteNameAttribute, truthy, hattr,
                setSelectedNoteNameNoReent, syncAttrNoCallback]
        · rw [setSelectedNoteName_valid cat st s i hguard hs hi]
          exact ⟨rfl, rfl, rfl⟩

/-- `setRandomNote` inherits the setter's frame conditions. -/
theorem setRandomNote_frame (cat : Catalog) (st : SelectorState)
    (stream : Nat → Nat × Nat) (fuel : Nat) (st' : SelectorState)
    (evs : List EventPayload)
    (h : setRandomNote cat st stream fuel = some (st', evs)) :
    st'.rootNotesOnly = st.rootNotesOnly
    ∧ st'.isConnected = st.isConnected
    ∧ st'.renderedGroups = st.renderedGroups := by
  unfold setRandomNote at h
  split at h
  · cases h
  · rename_i n hl
    injection h with h
    have hst : (setSelectedNoteName cat st (some n)).1 = st' :=
      congrArg Prod.fst h
    rw [← hst]
    exact setSelectedNoteName_frame cat st (some n)

/-! ### The claims -/

/-- C1: for every spelling `s` that appears in group `i` of the active
catalog (with `i` the index of the first group containing `s`, resolved
by exact string equality), assigning `s` via the `selectedNoteName`
setter results in state Selected with `selectedNoteName = s` and
`selectedNoteInteger = i`, and the assignment is idempotent. -/
theorem set_valid_spelling_selects (cat : Catalog) (st : SelectorState)
    (s : String) (i : Nat) (hs : s ≠ "")
    (hi : findNoteIndex (activeGroups cat st) s = some i)
    (hcur : st.selectedNoteName = some s → st.selectedNoteInteger = some i) :
    ((setSelectedNoteName cat st (some s)).1.selectedNoteName = some s
      ∧ (setSelectedNoteName cat st (some s)).1.selectedNoteInteger = some i)
    ∧ setSelectedNoteName cat (setSelectedNoteName cat st (some s)).1 (some s)
        = ((setSelectedNoteName cat st (some s)).1, []) := by
  by_cases hne : st.selectedNoteName = some s
  · rw [setSelectedNoteName_self cat st (some s) hne]
    exact ⟨⟨hne, hcur hne⟩, setSelectedNoteName_self cat st (some s) hne⟩
  · rw [setSelectedNoteName_valid cat st s i hne hs hi]
    exact ⟨⟨rfl, rfl⟩, setSelectedNoteName_self cat _ (some s) rfl⟩

/-- Witness for C1: on the modelled catalog, assigning "B♯" from the
cleared connected state selects it with pitch integer 0, idempotently. -/
theorem set_valid_spelling_selects_witness :
    ("B♯" ≠ "" ∧ findNoteIndex (activeGroups specCatalog stConn) "B♯" = some 0)
    ∧ (((setSelectedNoteName specCatalog stConn (some "B♯")).1.selectedNoteName = some "B♯"
      ∧ (setSelectedNoteName specCatalog stConn (some "B♯")).1.selectedNoteInteger = some 0)
    ∧ setSelectedNoteName specCatalog
        (setSelectedNoteName specCatalog stConn (some "B♯")).1 (some "B♯")
        = ((setSelectedNoteName specCatalog stConn (some "B♯")).1, [])) :=
  ⟨⟨by decide, by decide⟩,
    set_valid_spelling_selects specCatalog stConn "B♯" 0 (by decide) (by decide)
      (fun h => Option.noConfusion h)⟩

/-- C2 (amended): assigning a null, empty, or absent candidate that
differs from the currently selected name ends Unselected with no
exception (the setter is total), and the round trip `set x; set null`
always ends Unselected; but when the absent candidate is string-equal to
the current (stale) selection, the de-duplication guard returns early
and the state is unchanged — see the counterexample. -/
theorem set_absent_name_clears (cat : Catalog) (st : SelectorState)
    (newNote : Option String) :
    (st.selectedNoteName ≠ newNote →
      (∀ s, newNote = some s → findNoteIndex (activeGroups cat st) s = none) →
      (setSelectedNoteName cat st newNote).1.selectedNoteName = none
      ∧ (setSelectedNoteName cat st newNote).1.selectedNoteInteger = none)
    ∧ (∀ x : Option String,
      (st.selectedNoteName = none → st.selectedNoteInteger = none) →
      (setSelectedNoteName cat (setSelectedNoteName cat st x).1 none).1.selectedNoteName = none
      ∧ (setSelectedNoteName cat (setSelectedNoteName cat st x).1 none).1.selectedNoteInteger = none) := by
  constructor
  · intro hne hinv
    rw [setSelectedNoteName_invalid cat st newNote hne hinv]
    exact ⟨rfl, rfl⟩
  · intro x hc
    by_cases h1 : (setSelectedNoteName cat st x).1.selectedNoteName = none
    · rw [setSelectedNoteName_self cat _ none h1]
      exact ⟨h1, setSelectedNoteName_consistent cat st x hc h1⟩
    · rw [setSelectedNoteName_invalid cat _ none h1 (by intro s h; cases h)]
      exact ⟨rfl, rfl⟩

/-- Witness for C2 (amended): from Selected("C", 0), assigning the
absent name "H" clears the selection, and `set "B♯"; set null` ends
Unselected. -/
theorem set_absent_name_clears_witness :
    ((setSelectedNoteName specCatalog
        ⟨some "C", some 0, some "C", false, [], true⟩ (some "H")).1.selectedNoteName = none
      ∧ (setSelectedNoteName specCatalog
        ⟨some "C", some 0, some "C", false, [], true⟩ (some "H")).1.selectedNoteInteger = none)
    ∧ ((setSelectedNoteName specCatalog
        (setSelectedNoteName specCatalog stConn (some "B♯")).1 none).1.selectedNoteName = none
      ∧ (setSelectedNoteName specCatalog
        (setSelectedNoteName specCatalog stConn (some "B♯")).1 none).1.selectedNoteInteger = none) :=
  ⟨(set_absent_name_clears specCatalog
      ⟨some "C", some 0, some "C", false, [], true⟩ (some "H")).1
      (by decide) (by intro s h; cases h; decide),
    (set_absent_name_clears specCatalog stConn (some "B♯")).2 none
      (fun _ => rfl)⟩

/-- The state reached by selecting "B♯" on the full catalog and then
switching to root-notes-only mode: the stale selection survives. -/
def staleSelectionState : SelectorState :=
  (setRootNotesOnly specCatalog
    (setSelectedNoteName specCatalog stConn (some "B♯")).1 true).1

/-- Counterexample to C2 as stated: "B♯" is in no group of the active
(root-only) catalog, yet assigning it to the stale state Selected("B♯", 0)
leaves the component Selected — the de-duplication guard returns early
instead of clearing. -/
theorem set_absent_name_keeps_stale_selection :
    findNoteIndex (activeGroups specCatalog staleSelectionState) "B♯" = none
    ∧ staleSelectionState.selectedNoteName = some "B♯"
    ∧ (setSelectedNoteName specCatalog staleSelectionState
        (some "B♯")).1.selectedNoteName = some "B♯"
    ∧ (setSelectedNoteName specCatalog staleSelectionState
        (some "B♯")).1.selectedNoteInteger = some 0 := by decide

/-- C3: assigning the already-selected note name a second time is a
no-op transition — the state is unchanged and no
`enharmonic-note-selected` event is dispatched. -/
theorem set_same_name_is_noop (cat : Catalog) (st : SelectorState)
    (newNote : Option String) (h : st.selectedNoteName = newNote) :
    setSelectedNoteName cat st newNote = (st, []) := by
  simp [setSelectedNoteName, h]

/-- Witness for C3: re-assigning the selected "C" changes nothing and
dispatches nothing. -/
theorem set_same_name_is_noop_witness :
    (⟨some "C", some 0, some "C", false, [], true⟩ : SelectorState).selectedNoteName = some "C"
    ∧ setSelectedNoteName specCatalog
        ⟨some "C", some 0, some "C", false, [], true⟩ (some "C")
        = (⟨some "C", some 0, some "C", false, [], true⟩, []) :=
  ⟨rfl, set_same_name_is_noop specCatalog
    ⟨some "C", some 0, some "C", false, [], true⟩ (some "C") rfl⟩

/-- C4: every completed transition of a connected component — including
a transition to Unselected caused by an invalid name — dispatches the
change notification exactly once, carrying the new
`(noteName, noteInteger)` pair (so `(null, null)` when Unselected). -/
theorem transition_dispatches_once (cat : Catalog) (st : SelectorState)
    (n : Option String)
    (hconn : st.isConnected = true)
    (hne : st.selectedNoteName ≠ n)
    (hemp : ∀ g ∈ activeGroups cat st, "" ∉ g) :
    (setSelectedNoteName cat st n).2
      = [payloadOf (setSelectedNoteName cat st n).1] := by
  cases n with
  | none =>
    rw [setSelectedNoteName_invalid cat st none hne (by intro s h; cases h)]
    simp [payloadOf, hconn]
  | some s =>
    cases hi : findNoteIndex (activeGroups cat st) s with
    | none =>
      rw [setSelectedNoteName_invalid cat st (some s) hne
        (by intro t h; cases h; exact hi)]
      simp [payloadOf, hconn]
    | some i =>
      obtain ⟨hlt, hmem⟩ := findNoteIndex_some hi
      have hs : s ≠ "" := by
        intro hcontra
        exact hemp _ (getD_mem_of_lt [] hlt) (hcontra ▸ hmem)
      rw [setSelectedNoteName_valid cat st s i hne hs hi]
      simp [payloadOf, hconn]

/-- Witness for C4: the spec scenario — a connected component given the
invalid name "H" dispatches exactly one event with payload
`(null, null)`. -/
theorem transition_dispatches_once_witness :
    (stConn.isConnected = true ∧ stConn.selectedNoteName ≠ some "H"
      ∧ (∀ g ∈ activeGroups specCatalog stConn, "" ∉ g))
    ∧ (setSelectedNoteName specCatalog stConn (some "H")).2
        = [payloadOf (setSelectedNoteName specCatalog stConn (some "H")).1]
    ∧ (setSelectedNoteName specCatalog stConn (some "H")).2
        = [⟨none, none⟩] :=
  ⟨⟨rfl, by decide, by decide⟩,
    transition_dispatches_once specCatalog stConn (some "H") rfl
      (by decide) (by decide),
    by decide⟩

/-- C7: toggling root-notes-only mode dispatches no event and leaves the
selection (and everything else except the mode flag and the rendered
entry list) unchanged — there is no re-validation of the selection. -/
theorem mode_toggle_preserves_selection (cat : Catalog) (st : SelectorState)
    (v : Bool) :
    (setRootNotesOnly cat st v).2 = []
    ∧ (setRootNotesOnly cat st v).1.selectedNoteName = st.selectedNoteName
    ∧ (setRootNotesOnly cat st v).1.selectedNoteInteger = st.selectedNoteInteger
    ∧ (setRootNotesOnly cat st v).1.attrSelectedNoteName = st.attrSelectedNoteName
    ∧ (setRootNotesOnly cat st v).1.isConnected = st.isConnected
    ∧ (setRootNotesOnly cat st v).1 =
        { st with rootNotesOnly := v,
                  renderedGroups := (setRootNotesOnly cat st v).1.renderedGroups } := by
  by_cases h : st.rootNotesOnly = v <;>
    simp [setRootNotesOnly, populateEnharmonicNoteButtonsDiv, h] <;>
    cases st <;> simp_all

/-! ### Lemmas about the random-note loop -/

/-- A draw from a non-empty table of non-empty groups is a member of one
of its groups. -/
theorem randomDraw_mem {groups : List (List String)} (r : Nat × Nat)
    (hg : groups ≠ []) (hgs : ∀ g ∈ groups, g ≠ []) :
    ∃ g ∈ groups, randomDraw groups r ∈ g := by
  have hlen : 0 < groups.length := List.length_pos.mpr hg
  have hgi : r.1 % groups.length < groups.length := Nat.mod_lt _ hlen
  have hgmem : groups.getD (r.1 % groups.length) [] ∈ groups :=
    getD_mem_of_lt [] hgi
  have hgne : groups.getD (r.1 % groups.length) [] ≠ [] := hgs _ hgmem
  have hnlen : 0 < (groups.getD (r.1 % groups.length) []).length :=
    List.length_pos.mpr hgne
  refine ⟨groups.getD (r.1 % groups.length) [], hgmem, ?_⟩
  exact getD_mem_of_lt "" (Nat.mod_lt _ hnlen)

/-- Whatever the sampling loop returns differs from the current name and
is one of the stream's draws. -/
theorem randomLoopAux_some {groups : List (List String)}
    {current : Option String} {stream : Nat → Nat × Nat} {k fuel : Nat}
    {n : String}
    (h : randomLoopAux groups current stream k fuel = some n) :
    some n ≠ current ∧ ∃ j, n = randomDraw groups (stream j) := by
  induction fuel generalizing k with
  | zero => simp [randomLoopAux] at h
  | succ fuel ih =>
    by_cases heq : some (randomDraw groups (stream k)) = current
    · rw [randomLoopAux, if_pos heq] at h
      exact ih h
    · rw [randomLoopAux, if_neg heq] at h
      cases h
      exact ⟨heq, k, rfl⟩

/-- If the draw at index `base + steps` differs from the current name,
the loop started at `base` finds a note within `steps + 1` samples. -/
theorem randomLoopAux_terminates {groups : List (List String)}
    {current : Option String} {stream : Nat → Nat × Nat} (steps base : Nat)
    (h : some (randomDraw groups (stream (base + steps))) ≠ current) :
    ∃ n, randomLoopAux groups current stream base (steps + 1) = some n := by
  induction steps generalizing base with
  | zero =>
    refine ⟨randomDraw groups (stream base), ?_⟩
    rw [randomLoopAux, if_neg (by simpa using h)]
  | succ steps ih =>
    by_cases heq : some (randomDraw groups (stream base)) = current
    · obtain ⟨n, hn⟩ := ih (base + 1)
        (by rw [Nat.add_right_comm]; exact h)
      exact ⟨n, by rw [randomLoopAux, if_pos heq]; exact hn⟩
    · exact ⟨randomDraw groups (stream base),
        by rw [randomLoopAux, if_neg heq]⟩

/-- A completed `setRandomNote` run selects a note drawn from the active
catalog, at its first matching index, different from the previous name. -/
theorem setRandomNote_selected_aux (cat : Catalog) (st : SelectorState)
    (stream : Nat → Nat × Nat) (fuel : Nat) (st' : SelectorState)
    (evs : List EventPayload)
    (hg : activeGroups cat st ≠ [])
    (hgs : ∀ g ∈ activeGroups cat st, g ≠ [])
    (hemp : ∀ g ∈ activeGroups cat st, "" ∉ g)
    (h : setRandomNote cat st stream fuel = some (st', evs)) :
    ∃ n i, st'.selectedNoteName = some n ∧ st'.selectedNoteInteger = some i
      ∧ findNoteIndex (activeGroups cat st) n = some i
      ∧ some n ≠ st.selectedNoteName := by
  unfold setRandomNote at h
  split at h
  · cases h
  · rename_i n hl
    obtain ⟨hne, j, hj⟩ := randomLoopAux_some hl
    obtain ⟨g, hgm, hnm⟩ := hj ▸ randomDraw_mem (stream j) hg hgs
    obtain ⟨i, hi⟩ := findNoteIndex_of_mem hgm hnm
    have hs : n ≠ "" := fun hc => hemp g hgm (hc ▸ hnm)
    have hset := setSelectedNoteName_valid cat st n i (fun hc => hne hc.symm) hs hi
    injection h with h
    have hst : (setSelectedNoteName cat st (some n)).1 = st' :=
      congrArg Prod.fst h
    refine ⟨n, i, ?_, ?_, hi, hne⟩ <;> rw [← hst, hset]

/-- C10: whenever `setRandomNote` completes, the component ends in the
Selected state — the chosen spelling is drawn from the active catalog
and the integer is its first matching group index (so `setRandomNote`
never leaves the component Unselected); the drawn note also always
differs from the previous selection. -/
theorem setRandomNote_ends_selected (cat : Catalog) (st : SelectorState)
    (stream : Nat → Nat × Nat) (fuel : Nat) (st' : SelectorState)
    (evs : List EventPayload)
    (hg : activeGroups cat st ≠ [])
    (hgs : ∀ g ∈ activeGroups cat st, g ≠ [])
    (hemp : ∀ g ∈ activeGroups cat st, "" ∉ g)
    (h : setRandomNote cat st stream fuel = some (st', evs)) :
    ∃ n i, st'.selectedNoteName = some n ∧ st'.selectedNoteInteger = some i
      ∧ findNoteIndex (activeGroups cat st) n = some i
      ∧ some n ≠ st.selectedNoteName :=
  setRandomNote_selected_aux cat st stream fuel st' evs hg hgs hemp h

/-- Witness for C10: from the cleared connected state, a completed
`setRandomNote` run on the modelled catalog ends Selected. -/
theorem setRandomNote_ends_selected_witness :
    (activeGroups specCatalog stConn ≠ []
      ∧ (∀ g ∈ activeGroups specCatalog stConn, g ≠ [])
      ∧ (∀ g ∈ activeGroups specCatalog stConn, "" ∉ g)
      ∧ setRandomNote specCatalog stConn (fun _ => (0, 0)) 1
          = some (setSelectedNoteName specCatalog stConn (some "C")))
    ∧ ∃ n i,
      (setSelectedNoteName specCatalog stConn (some "C")).1.selectedNoteName = some n
      ∧ (setSelectedNoteName specCatalog stConn (some "C")).1.selectedNoteInteger = some i
      ∧ findNoteIndex (activeGroups specCatalog stConn) n = some i
      ∧ some n ≠ stConn.selectedNoteName :=
  ⟨⟨by decide, by decide, by decide, by decide⟩,
    setRandomNote_ends_selected specCatalog stConn (fun _ => (0, 0)) 1
      (setSelectedNoteName specCatalog stConn (some "C")).1
      (setSelectedNoteName specCatalog stConn (some "C")).2
      (by decide) (by decide) (by decide) (by decide)⟩

/-- C5: whenever the catalog offers at least two distinct notes, two
consecutive completed calls of `setRandomNote` select different notes
(and the first also differs from whatever was selected before it). -/
theorem consecutive_random_notes_differ (cat : Catalog) (st : SelectorState)
    (s1 s2 : Nat → Nat × Nat) (f1 f2 : Nat)
    (st1 st2 : SelectorState) (ev1 ev2 : List EventPayload)
    (hg : activeGroups cat st ≠ [])
    (hgs : ∀ g ∈ activeGroups cat st, g ≠ [])
    (hemp : ∀ g ∈ activeGroups cat st, "" ∉ g)
    (htwo : ∃ a b, a ∈ (activeGroups cat st).flatten
      ∧ b ∈ (activeGroups cat st).flatten ∧ a ≠ b)
    (h1 : setRandomNote cat st s1 f1 = some (st1, ev1))
    (h2 : setRandomNote cat st1 s2 f2 = some (st2, ev2)) :
    ∃ n1 n2, st1.selectedNoteName = some n1
      ∧ st2.selectedNoteName = some n2
      ∧ n1 ≠ n2 ∧ some n1 ≠ st.selectedNoteName := by
  obtain ⟨n1, i1, hn1, _, hi1, hdiff1⟩ :=
    setRandomNote_selected_aux cat st s1 f1 st1 ev1 hg hgs hemp h1
  have hact : activeGroups cat st1 = activeGroups cat st := by
    unfold activeGroups
    rw [(setRandomNote_frame cat st s1 f1 st1 ev1 h1).1]
  obtain ⟨n2, i2, hn2, _, hi2, hdiff2⟩ :=
    setRandomNote_selected_aux cat st1 s2 f2 st2 ev2
      (hact ▸ hg) (hact ▸ hgs) (hact ▸ hemp) h2
  refine ⟨n1, n2, hn1, hn2, ?_, hdiff1⟩
  intro hcontra
  exact hdiff2 (by rw [hn1, hcontra])

/-- First random run of the C5 witness: the constant-zero stream draws
"C" from the cleared state. -/
def c5Run1 : SelectorState × List EventPayload :=
  setSelectedNoteName specCatalog stConn (some "C")

/-- Second random run of the C5 witness: a stream drawing group 1 picks
"C♯" from the state selected by the first run. -/
def c5Run2 : SelectorState × List EventPayload :=
  setSelectedNoteName specCatalog c5Run1.1 (some "C♯")

/-- Witness for C5: two concrete consecutive completed `setRandomNote`
runs on the modelled catalog select "C" then "C♯". -/
theorem consecutive_random_notes_differ_witness :
    (setRandomNote specCatalog stConn (fun _ => (0, 0)) 1 = some (c5Run1.1, c5Run1.2)
      ∧ setRandomNote specCatalog c5Run1.1 (fun _ => (1, 0)) 1 = some (c5Run2.1, c5Run2.2))
    ∧ ∃ n1 n2, c5Run1.1.selectedNoteName = some n1
      ∧ c5Run2.1.selectedNoteName = some n2
      ∧ n1 ≠ n2 ∧ some n1 ≠ stConn.selectedNoteName :=
  ⟨⟨by decide, by decide⟩,
    consecutive_random_notes_differ specCatalog stConn
      (fun _ => (0, 0)) (fun _ => (1, 0)) 1 1
      c5Run1.1 c5Run2.1 c5Run1.2 c5Run2.2
      (by decide) (by decide) (by decide)
      ⟨"C", "C♯", by decide, by decide, by decide⟩
      (by decide) (by decide)⟩

/-- A catalog whose twelve-ish structure is collapsed to the degenerate
case the claim is about: one group, one note, in both tables. -/
def oneNoteCatalog : Catalog := ⟨[["C"]], [["C"]]⟩

/-- A connected state with the single catalog note already selected. -/
def oneNoteSelected : SelectorState :=
  ⟨some "C", some 0, some "C", false, [], true⟩

/-- The draw stream that always returns the first group and first note
(on the one-note catalog every stream draws the same note anyway). -/
def constStream : Nat → Nat × Nat := fun _ => (0, 0)

/-- Divergence of `setRandomNote` on the one-note catalog with that note
selected: the sampling loop exhausts every fuel bound, i.e. the source
`do … while` never exits. -/
def setRandomNoteStuck : Prop :=
  ∀ fuel, setRandomNote oneNoteCatalog oneNoteSelected constStream fuel = none

/-- On the one-note catalog, every sample equals the current selection,
so the loop never returns. -/
theorem randomLoopAux_oneNote_none :
    ∀ (f k : Nat),
      randomLoopAux [["C"]] (some "C") constStream k f = none := by
  intro f
  induction f with
  | zero => intro k; rfl
  | succ f ih =>
    intro k
    have hd : randomDraw [["C"]] (constStream k) = "C" := rfl
    rw [randomLoopAux]
    rw [hd, if_pos rfl]
    exact ih (k + 1)

/-- Counterexample to C6 as stated: with the catalog reduced to a single
possible note and that note already selected, `setRandomNote` has no
guard — it keeps resampling although no different note is obtainable,
and it never terminates, for every fuel bound. -/
theorem setRandomNote_no_guard_counterexample : setRandomNoteStuck := by
  intro fuel
  unfold setRandomNote
  rw [show activeGroups oneNoteCatalog oneNoteSelected = [["C"]] from rfl,
    show oneNoteSelected.selectedNoteName = some "C" from rfl,
    randomLoopAux_oneNote_none fuel 0]

/-- C6 (amended): `setRandomNote` resamples unconditionally while the
drawn note equals the current selection — there is no guard for the
single-note catalog.  It terminates as soon as the stream draws a note
different from the current selection, and, conversely, when every draw
equals the current selection it runs forever (returns `none` for every
fuel bound). -/
theorem setRandomNote_termination (cat : Catalog) (st : SelectorState)
    (stream : Nat → Nat × Nat) :
    (∀ k, some (randomDraw (activeGroups cat st) (stream k)) ≠ st.selectedNoteName →
      ∃ res, setRandomNote cat st stream (k + 1) = some res)
    ∧ ((∀ j, some (randomDraw (activeGroups cat st) (stream j)) = st.selectedNoteName) →
      ∀ fuel, setRandomNote cat st stream fuel = none) := by
  constructor
  · intro k hk
    obtain ⟨n, hn⟩ := randomLoopAux_terminates k 0 (by simpa using hk)
    exact ⟨setSelectedNoteName cat st (some n),
      by unfold setRandomNote; rw [hn]⟩
  · intro hall fuel
    unfold setRandomNote
    suffices hloop : ∀ f b,
        randomLoopAux (activeGroups cat st) st.selectedNoteName stream b f = none by
      rw [hloop fuel 0]
    intro f
    induction f with
    | zero => intro b; rfl
    | succ f ih =>
      intro b
      rw [randomLoopAux, if_pos (hall b)]
      exact ih (b + 1)

/-- Witness for C6 (amended): on the modelled catalog the very first
draw of the constant stream differs from the empty selection, and the
run completes with one unit of fuel. -/
theorem setRandomNote_termination_witness :
    (some (randomDraw (activeGroups specCatalog stConn) (constStream 0))
        ≠ stConn.selectedNoteName)
    ∧ ∃ res, setRandomNote specCatalog stConn constStream (0 + 1) = some res :=
  ⟨by decide,
    (setRandomNote_termination specCatalog stConn constStream).1 0 (by decide)⟩

/-! ### The selection invariant (C8) -/

/-- `SelectionInv` only looks at the selection pair. -/
theorem SelectionInv_of_pair {cat : Catalog} {st st' : SelectorState}
    (h1 : st'.selectedNoteName = st.selectedNoteName)
    (h2 : st'.selectedNoteInteger = st.selectedNoteInteger)
    (h : SelectionInv cat st) : SelectionInv cat st' := by
  unfold SelectionInv at h ⊢
  rw [h1, h2]
  exact h

/-- A cleared pair satisfies the invariant. -/
theorem SelectionInv_none {cat : Catalog} {st' : SelectorState}
    (h1 : st'.selectedNoteName = none)
    (h2 : st'.selectedNoteInteger = none) : SelectionInv cat st' := by
  unfold SelectionInv
  rw [h1, h2]
  trivial

/-- A pair resolved in either 12-group table satisfies the invariant. -/
theorem SelectionInv_found {cat : Catalog} {st st' : SelectorState}
    {s : String} {i : Nat}
    (h12f : cat.noteNameGroups.length = 12)
    (h12r : cat.rootNoteGroups.length = 12)
    (h1 : st'.selectedNoteName = some s)
    (h2 : st'.selectedNoteInteger = some i)
    (hi : findNoteIndex (activeGroups cat st) s = some i) :
    SelectionInv cat st' := by
  obtain ⟨hlt, hmem⟩ := findNoteIndex_some hi
  unfold SelectionInv
  rw [h1, h2]
  unfold activeGroups at hlt hmem
  cases hb : st.rootNotesOnly with
  | true =>
    rw [hb] at hlt hmem
    simp only [if_pos rfl] at hlt hmem
    exact ⟨h12r ▸ hlt, Or.inr hmem⟩
  | false =>
    rw [hb] at hlt hmem
    simp only [if_neg Bool.false_ne_true] at hlt hmem
    exact ⟨h12f ▸ hlt, Or.inl hmem⟩

/-- The selection setter preserves the invariant. -/
theorem setSelectedNoteName_preserves_inv (cat : Catalog) (st : SelectorState)
    (x : Option String)
    (h12f : cat.noteNameGroups.length = 12)
    (h12r : cat.rootNoteGroups.length = 12)
    (hInv : SelectionInv cat st) :
    SelectionInv cat (setSelectedNoteName cat st x).1 := by
  rcases setSelectedNoteName_shape cat st x with ⟨h1, h2⟩ | ⟨h1, h2⟩ | ⟨s, i, h1, h2, hi⟩
  · exact SelectionInv_of_pair h1 h2 hInv
  · exact SelectionInv_none h1 h2
  · exact SelectionInv_found h12f h12r h1 h2 hi

/-- C8: every operation of the component — construction, note-name
assignment, note-button click, clear, `setRandomNote`, and the mode
toggle — preserves the invariant that `selectedNoteName` and
`selectedNoteInteger` are null together or non-null together, with the
integer an index in `[0, 11]` of a catalog group containing the name. -/
theorem operations_preserve_invariant (cat : Catalog) (st : SelectorState)
    (h12f : cat.noteNameGroups.length = 12)
    (h12r : cat.rootNoteGroups.length = 12)
    (hInv : SelectionInv cat st) :
    (∀ r, SelectionInv cat (initialState r))
    ∧ (∀ q r st0, constructComponent q r = Except.ok st0 → SelectionInv cat st0)
    ∧ (∀ x, SelectionInv cat (setSelectedNoteName cat st x).1)
    ∧ (∀ b, SelectionInv cat (noteButtonClick cat st b).1)
    ∧ SelectionInv cat (clearSelectionClick cat st).1
    ∧ (∀ stream fuel st' evs,
        setRandomNote cat st stream fuel = some (st', evs) → SelectionInv cat st')
    ∧ (∀ v, SelectionInv cat (setRootNotesOnly cat st v).1) := by
  refine ⟨fun r => trivial, ?_, ?_, ?_, ?_, ?_, ?_⟩
  · intro q r st0 h
    unfold constructComponent at h
    split at h
    · cases h
    · injection h with h
      subst h
      trivial
  · exact fun x => setSelectedNoteName_preserves_inv cat st x h12f h12r hInv
  · exact fun b => setSelectedNoteName_preserves_inv cat st b h12f h12r hInv
  · exact setSelectedNoteName_preserves_inv cat st none h12f h12r hInv
  · intro stream fuel st' evs h
    unfold setRandomNote at h
    split at h
    · cases h
    · rename_i n hl
      injection h with h
      have hst : (setSelectedNoteName cat st (some n)).1 = st' :=
        congrArg Prod.fst h
      rw [← hst]
      exact setSelectedNoteName_preserves_inv cat st (some n) h12f h12r hInv
  · intro v
    refine SelectionInv_of_pair ?_ ?_ hInv <;>
      by_cases h : st.rootNotesOnly = v <;>
        simp [setRootNotesOnly, populateEnharmonicNoteButtonsDiv, h]

/-- Witness for C8: the invariant holds on the modelled catalog after a
valid assignment, a clear, and a mode toggle from the cleared state. -/
theorem operations_preserve_invariant_witness :
    (specCatalog.noteNameGroups.length = 12
      ∧ specCatalog.rootNoteGroups.length = 12
      ∧ SelectionInv specCatalog stConn)
    ∧ SelectionInv specCatalog (setSelectedNoteName specCatalog stConn (some "B♯")).1
    ∧ SelectionInv specCatalog (clearSelectionClick specCatalog stConn).1
    ∧ SelectionInv specCatalog (setRootNotesOnly specCatalog stConn true).1 :=
  ⟨⟨by decide, by decide, trivial⟩,
    (operations_preserve_invariant specCatalog stConn (by decide) (by decide)
      trivial).2.2.1 (some "B♯"),
    (operations_preserve_invariant specCatalog stConn (by decide) (by decide)
      trivial).2.2.2.2.1,
    (operations_preserve_invariant specCatalog stConn (by decide) (by decide)
      trivial).2.2.2.2.2.2 true⟩

/-! ### Construction and the rendering anchors (C9) -/

/-- C9: construction succeeds exactly when every required rendering
anchor materialized in the shadow DOM; when any is missing the
constructor aborts with the critical-elements error, so the component
never initializes into a partially-wired state. -/
theorem construction_requires_anchors (q : DomQueryResult) (r : Bool) :
    ((∃ st0, constructComponent q r = Except.ok st0) ↔
      (q.mainButton.isSome ∧ q.mainButtonTextSpan.isSome
        ∧ q.mainButtonSlot.isSome ∧ q.dialog.isSome
        ∧ q.closeDialogButton.isSome ∧ q.enharmonicNoteButtonsDiv.isSome
        ∧ q.clearSelectionButton.isSome))
    ∧ ((q.mainButton.isNone ∨ q.mainButtonTextSpan.isNone
        ∨ q.mainButtonSlot.isNone ∨ q.dialog.isNone
        ∨ q.closeDialogButton.isNone ∨ q.enharmonicNoteButtonsDiv.isNone
        ∨ q.clearSelectionButton.isNone) →
      constructComponent q r
        = Except.error "EnharmonicNoteSelector: Critical elements not found in shadow DOM.") := by
  rcases q with ⟨mb, ts, sl, dl, cb, nb, cs⟩
  cases mb <;> cases ts <;> cases sl <;> cases dl <;> cases cb <;>
    cases nb <;> cases cs <;>
      simp [constructComponent, cacheDomElements]

/-- Shadow-DOM query results with every critical element present. -/
def allAnchors : DomQueryResult :=
  ⟨some (), some (), some (), some (), some (), some (), some ()⟩

/-- Shadow-DOM query results with the main trigger button missing. -/
def missingMainButton : DomQueryResult :=
  ⟨none, some (), some (), some (), some (), some (), some ()⟩

/-- Witness for C9: with every anchor present construction succeeds;
with the main button missing it aborts with the critical-elements
error. -/
theorem construction_requires_anchors_witness :
    (∃ st0, constructComponent allAnchors false = Except.ok st0)
    ∧ missingMainButton.mainButton.isNone
    ∧ constructComponent missingMainButton false
        = Except.error "EnharmonicNoteSelector: Critical elements not found in shadow DOM." :=
  ⟨(construction_requires_anchors allAnchors false).1.mpr (by decide),
    by decide,
    (construction_requires_anchors missingMainButton false).2
      (Or.inl (by decide))⟩

end EnharmonicNoteSelectorSpec
